import Mathlib

/-!
Verification development for the `createRegistry` data-registry module and its
helper utilities (global-styles variable resolution, template auto-draft
seeding).

Each definition below is a shallow embedding of a function from the source.
Listener functions and selector/action bundles are identified by `Nat`
identity tokens (JavaScript reference identity); JavaScript objects whose
only relevant operation is keyed access are modelled as association lists
with first-match lookup, where registration prepends (object assignment with
last-write-wins is shadowing under first-match lookup).
-/

namespace Registry

/-! ### Listener bus (`listeners`, `subscribe`, `globalListener`)

The source keeps a `let listeners = []` binding.  `subscribe` pushes onto the
current array in place; the unsubscribe closure reassigns the binding to a
fresh array `without(listeners, listener)` (lodash `without` returns a new
array excluding every occurrence of the value).  `globalListener` runs
`listeners.forEach((l) => l())`; per the ECMAScript `forEach` contract it
iterates the array object that `listeners` pointed to when the pass began,
over the index range fixed at that moment, so elements pushed during the pass
(indices beyond the initial length) are not visited, and a reassignment of
the binding leaves the ongoing iteration on the old object. -/

/-- A primitive effect a listener can perform on the bus while being
notified: subscribe a new listener (array `push`) or run an unsubscribe
closure for a listener (rebind `listeners` to `without(listeners, id)`). -/
inductive BusOp where
  | sub (id : Nat)
  | unsub (id : Nat)
deriving DecidableEq, Repr

/-- State of the bus during a `globalListener` pass: `orig` is the contents
of the array object the ongoing `forEach` iterates; `cur` is the contents of
the array the `listeners` binding currently points to; `same` records whether
the binding still points to the iterated object. -/
structure PassState where
  orig : List Nat
  cur : List Nat
  same : Bool
deriving DecidableEq, Repr

/-- Effect of one primitive op on the pass state.  A `push` mutates the array
the binding points to in place (so it extends `orig` too while `same`); an
unsubscribe builds a fresh array with every occurrence of the id removed
(lodash `without`) and rebinds `listeners` to it. -/
def applyBusOp (st : PassState) (op : BusOp) : PassState :=
  match op with
  | .sub id =>
      if st.same then
        { orig := st.orig ++ [id], cur := st.cur ++ [id], same := true }
      else
        { st with cur := st.cur ++ [id] }
  | .unsub id =>
      { st with cur := st.cur.filter (· ≠ id), same := false }

/-- Run a listener's whole script of bus effects. -/
def applyBusOps (st : PassState) (ops : List BusOp) : PassState :=
  ops.foldl applyBusOp st

/-- The `forEach` loop of `globalListener`: visit indices `k, k+1, …` over
the index range fixed when the pass began (`remaining` indices left), reading
the current element of the iterated array object at each index and invoking
that listener (`beh id` is the script of bus effects listener `id` performs
when invoked).  Returns the invoked listeners in order, and the final
state. -/
def runPass (beh : Nat → List BusOp) : Nat → Nat → PassState → List Nat × PassState
  | _, 0, st => ([], st)
  | k, remaining + 1, st =>
    match st.orig[k]? with
    | some id =>
        let st' := applyBusOps st (beh id)
        let r := runPass beh (k + 1) remaining st'
        (id :: r.1, r.2)
    | none => ([], st)

/-- `globalListener` itself: a notify pass whose `forEach` range is the
length of the listeners array at the moment the pass begins. -/
def globalListener (beh : Nat → List BusOp) (listeners : List Nat) :
    List Nat × PassState :=
  runPass beh 0 listeners.length ⟨listeners, listeners, true⟩

/-! ### `subscribe` / unsubscribe outside a notify pass -/

/-- `subscribe(listener)`: `listeners.push(listener)`. -/
def subscribeListener (listeners : List Nat) (id : Nat) : List Nat :=
  listeners ++ [id]

/-- The unsubscribe closure returned by `subscribe`:
`listeners = without(listeners, listener)`; lodash `without` excludes every
occurrence of the given value. -/
def unsubscribeListener (listeners : List Nat) (id : Nat) : List Nat :=
  listeners.filter (· ≠ id)

/-! ### `select` and `dispatch` with parent delegation

A registered store's `getSelectors()` / `getActions()` results are modelled
by identity tokens.  `select` falls off the function body on a miss with no
parent, which in JavaScript yields `undefined`; `dispatch` ends with
`return parent && parent.dispatch( reducerKey )`, which yields the value of
`parent` itself — `null` — when there is no parent, so the two miss values
are distinct JavaScript values and the model keeps them apart. -/

/-- Value returned by a registry lookup: a bundle object (identified by its
reference token), `undefined`, or `null`. -/
inductive JSRet where
  | undefined
  | nullV
  | bundle (id : Nat)
deriving DecidableEq, Repr

/-- A registered generic store: the identity of its selector bundle and of
its action bundle. -/
structure StoreEntry where
  selectors : Nat
  actions : Nat
deriving DecidableEq, Repr

/-- A registry: its `stores` map plus an optional parent registry. -/
inductive RegistryT where
  | mk (stores : List (String × StoreEntry)) (parent : Option RegistryT)

/-- First-match lookup in a stores map (`stores[ reducerKey ]`). -/
def lookupStore (stores : List (String × StoreEntry)) (key : String) :
    Option StoreEntry :=
  (stores.find? (fun kv => kv.1 = key)).map (·.2)

/-- `select( reducerKey )`: return the local store's selector bundle when the
key is registered locally (the atom-resolver bookkeeping on that path does
not affect the returned value); otherwise delegate to the parent when one
exists (after propagating the atom resolver); otherwise fall through, which
is `undefined`. -/
def select : RegistryT → String → JSRet
  | .mk stores parent, key =>
    match lookupStore stores key, parent with
    | some store, _ => .bundle store.selectors
    | none, some p => select p key
    | none, none => .undefined

/-- `dispatch( reducerKey )`: return the local store's action bundle when the
key is registered locally; otherwise `return parent && parent.dispatch(key)`,
i.e. the parent's result when a parent exists and the value of `parent`
itself (`null`) when not. -/
def dispatch : RegistryT → String → JSRet
  | .mk stores parent, key =>
    match lookupStore stores key, parent with
    | some store, _ => .bundle store.actions
    | none, some p => dispatch p key
    | none, none => .nullV

/-! ### `registerGenericStore`, `registerStore`, `getStoreAtom`

`registerGenericStore` validates that the three capabilities of the config
are functions (throwing a `TypeError` before touching any state when one is
not), then writes `stores[ key ]`, creates `storesAtoms[ key ]` with
`createStoreAtom( config.subscribe, () => null, () => \x7b\x7d, key )`, and
subscribes the global listener.  A capability that may or may not be a
function is modelled as an `Option` over its identity token; the created
atom is identified by the `key` it was created for. -/

/-- A generic-store config as passed to `registerGenericStore`: each field is
`some token` when the corresponding property is a function and `none` when it
is missing or not callable. -/
structure GenericConfig where
  getSelectors : Option Nat
  getActions : Option Nat
  subscribe : Option Nat
deriving DecidableEq, Repr

/-- The mutable registration state of one registry: the `stores` and
`storesAtoms` maps (object assignment modelled by shadowing prepend with
first-match lookup). -/
structure RegState where
  stores : List (String × GenericConfig)
  storesAtoms : List (String × String)
deriving DecidableEq, Repr

/-- First-match lookup in an association list. -/
def alookup {α : Type} (m : List (String × α)) (key : String) : Option α :=
  (m.find? (fun kv => kv.1 = key)).map (·.2)

/-- `registerGenericStore( key, config )`: throw a `TypeError` when any of
`config.getSelectors`, `config.getActions`, `config.subscribe` is not a
function; otherwise assign `stores[ key ]` and `storesAtoms[ key ]` and
subscribe the config to the global listener (the subscription side effect
does not change these maps). -/
def registerGenericStore (st : RegState) (key : String) (config : GenericConfig) :
    Except String RegState :=
  if config.getSelectors.isNone then
    .error "config.getSelectors must be a function"
  else if config.getActions.isNone then
    .error "config.getActions must be a function"
  else if config.subscribe.isNone then
    .error "config.subscribe must be a function"
  else
    .ok { stores := (key, config) :: st.stores,
          storesAtoms := (key, key) :: st.storesAtoms }

/-- The registration state observed after a `registerGenericStore` call by a
caller that catches the exception: a throw happens before any assignment, so
the error branch leaves the state exactly as it was. -/
def registerGenericStoreRun (st : RegState) (key : String)
    (config : GenericConfig) : RegState :=
  match registerGenericStore st key config with
  | .ok st' => st'
  | .error _ => st

/-- `getStoreAtom( key )`: return `storesAtoms[ key ]` when present, else
`parent.getStoreAtom( key )` (whose result is abstracted as a lookup function
of the parent). -/
def getStoreAtom (st : RegState) (parentAtom : String → Option String)
    (key : String) : Option String :=
  match alookup st.storesAtoms key with
  | some atom => some atom
  | none => parentAtom key

/-- A registration operation performed on a registry after creation:
`generic` is a `registerGenericStore( key, config )` call; `store` is a
`registry.registerStore( key, options )` call, which throws when
`options.reducer` is missing and otherwise registers the namespace store
built by `createNamespace` (an adapter whose three capabilities are always
functions, identified here by the tokens `0`, `1`, `2`). -/
inductive RegOp where
  | generic (key : String) (config : GenericConfig)
  | store (key : String) (hasReducer : Bool)
deriving DecidableEq, Repr

/-- The adapter produced by `createNamespace`: `getSelectors`, `getActions`
and `subscribe` are all functions. -/
def namespaceConfig : GenericConfig :=
  { getSelectors := some 0, getActions := some 1, subscribe := some 2 }

/-- Observable effect of one registration operation on the registration
state (throws leave the state unchanged for a caller that catches them). -/
def applyRegOp (st : RegState) (op : RegOp) : RegState :=
  match op with
  | .generic key config => registerGenericStoreRun st key config
  | .store key hasReducer =>
      if hasReducer then registerGenericStoreRun st key namespaceConfig
      else st

/-- The state `createRegistry` starts from: empty maps, then
`registerGenericStore( 'core/data', createCoreDataStore( registry ) )` —
the core data store exposes the three capabilities as functions. -/
def initRegState : RegState :=
  registerGenericStoreRun { stores := [], storesAtoms := [] } "core/data"
    namespaceConfig

/-- The registration state after a sequence of registration operations run
on a fresh registry. -/
def runRegOps (ops : List RegOp) : RegState :=
  ops.foldl applyRegOp initRegState

/-! ### `use` and `withPlugins`

`use( plugin, options )` reassigns the `registry` binding to
`\x7b ...registry, ...plugin( registry, options ) \x7d` and returns the new
object; the old object is not mutated.  A registry surface is modelled as a
map from method name to method identity, and a plugin as a function from the
current surface to the overrides object it returns; the object spread gives
the overrides priority. -/

/-- A registry's public surface: method name to method identity. -/
def RegSurface : Type := String → Option Nat

/-- `use( plugin )`: build the new registry object by spreading the current
registry then the plugin's result over it, where a key present in the
plugin's result shadows the original. -/
def use (registry : RegSurface) (plugin : RegSurface → RegSurface) :
    RegSurface :=
  fun key =>
    match plugin registry key with
    | some m => some m
    | none => registry key

/-! ### `getResolveSelectors` / `__experimentalResolveSelect`

The wrapped selector runs the promise executor synchronously: it calls the
underlying selector (triggering any resolver), resolves immediately when
`selectors.hasFinishedResolution( selectorName, args )` already holds, and
otherwise subscribes a listener to the global bus that, on each notification,
re-checks the finished status and — once it holds — first unsubscribes and
then resolves with a fresh `selector.apply( null, args )` result.

The environment is modelled as a store state of type `σ`; `hasFinished` and
`sel` are the two closures `hasFinished()` and `getResult()` read against the
store state current when they run; a bus notification delivers the store
state at that moment. -/

/-- The observable state of one `resolveSelect` promise: `status` is `none`
while pending and `some v` once resolved with `v`; `subscribed` records
whether its listener is currently registered on the global bus. -/
structure ResolvePromise (α : Type) where
  status : Option α
  subscribed : Bool
deriving DecidableEq, Repr

/-- Synchronous part of the promise executor: trigger the selector, resolve
at once when resolution has already finished, otherwise subscribe to the
global bus and stay pending. -/
def resolveSelectStart {σ α : Type} (hasFinished : σ → Bool) (sel : σ → α)
    (s0 : σ) : ResolvePromise α :=
  let result := sel s0
  if hasFinished s0 then { status := some result, subscribed := false }
  else { status := none, subscribed := true }

/-- Effect of one global-bus notification on the promise: while the listener
is subscribed it re-checks the finished status against the store state `s`
delivered by the notification, and when it holds it unsubscribes and
resolves with the selector's value at `s`; after unsubscribing the listener
is never invoked again. -/
def resolveSelectNotify {σ α : Type} (hasFinished : σ → Bool) (sel : σ → α)
    (p : ResolvePromise α) (s : σ) : ResolvePromise α :=
  if p.subscribed then
    if hasFinished s then { status := some (sel s), subscribed := false }
    else p
  else p

/-- The promise state after the synchronous start at store state `s0`
followed by the bus notifications `events` (the store states at each
notification). -/
def resolveSelectRun {σ α : Type} (hasFinished : σ → Bool) (sel : σ → α)
    (s0 : σ) (events : List σ) : ResolvePromise α :=
  events.foldl (resolveSelectNotify hasFinished sel)
    (resolveSelectStart hasFinished sel s0)

/-- The resolution-introspection selectors `getResolveSelectors` omits from
the bundle before wrapping. -/
def excludedResolutionSelectors : List String :=
  ["getIsResolving", "hasStartedResolution", "hasFinishedResolution",
   "isResolving", "getCachedResolvers"]

/-- `getResolveSelectors( selectors )`: omit the introspection selectors,
then wrap each remaining selector into the argument-taking function whose
promise behaviour is `resolveSelectRun` with `hasFinishedResolution`
specialised to that selector's name and arguments (`ρ` is the type of
argument tuples). -/
def getResolveSelectors {σ α ρ : Type}
    (hasFinishedResolution : String → ρ → σ → Bool)
    (selectors : List (String × (ρ → σ → α))) :
    List (String × (ρ → σ → List σ → ResolvePromise α)) :=
  (selectors.filter
      (fun kv => ! excludedResolutionSelectors.contains kv.1)).map
    (fun kv =>
      (kv.1, fun args s0 events =>
        resolveSelectRun (hasFinishedResolution kv.1 args)
          (fun s => kv.2 args s) s0 events))

end Registry

namespace Templates

/-!
### `_gutenberg_create_auto_draft_for_template`

The function runs a `WP_Query` for at most one post of the given type whose
title is the slug and whose `theme` meta matches, restricted to the statuses
`publish` and `auto-draft`; the query's answer (external database state) is
the `queryResult` input.  When no post matched it inserts a fresh auto-draft
with the template content; when a post matched it updates that post's
content only when the post is an auto-draft whose content differs from the
template file's; otherwise it does nothing.
-/

/-- The fields of a queried post the function reads. -/
structure WPPost where
  post_status : String
  post_content : String
deriving DecidableEq, Repr

/-- The write the function performs against the posts table:
`insertAutoDraft` is the `wp_insert_post` of a new post with status
`auto-draft`, title and name `slug`, and the template content;
`updateContent` is the `wp_insert_post( post )` of the matched post with its
`post_content` replaced; `noop` is no write at all. -/
inductive DraftEffect where
  | insertAutoDraft (post_type slug content : String)
  | updateContent (newContent : String)
  | noop
deriving DecidableEq, Repr

/-- `_gutenberg_create_auto_draft_for_template( post_type, slug, theme,
content )`, as a function of the query's result. -/
def create_auto_draft_for_template (queryResult : Option WPPost)
    (post_type slug _theme content : String) : DraftEffect :=
  match queryResult with
  | none => .insertAutoDraft post_type slug content
  | some post =>
      if post.post_status = "auto-draft" ∧ content ≠ post.post_content then
        .updateContent content
      else
        .noop

end Templates

namespace GlobalStyles

/-!
### `getValueFromVariable` and its helpers

JavaScript values are modelled by `JVal`; lodash `get` walks string keys
through objects and yields `undefined` on any miss; `??` takes the right
operand only on `null`/`undefined`; `||` takes the right operand on any
falsy value; lodash `find` scans an array and yields `undefined` when the
collection is not an array or nothing matches.  `camelCase` is modelled for
the hyphen-separated lower-case words that occur in preset types
(`'font-size' → 'fontSize'`), which is how lodash behaves on them.  The
recursion between `getValueFromVariable` and the preset/custom helpers can
loop forever in JavaScript on cyclic variable references, so the model takes
a fuel parameter and answers `undefined` on exhaustion; fuel only matters
past the input-validation guard, which never recurses.
-/

/-- A JavaScript value. -/
inductive JVal where
  | undefined
  | nullV
  | boolV (b : Bool)
  | numV (n : Int)
  | str (s : String)
  | arr (xs : List JVal)
  | obj (fields : List (String × JVal))

/-- Strict equality `===` on the values compared in this module: primitives
compare by value; two object or array operands compare by reference, which
is never true for the distinct references that reach a comparison here. -/
def jeq : JVal → JVal → Bool
  | .undefined, .undefined => true
  | .nullV, .nullV => true
  | .boolV a, .boolV b => a == b
  | .numV a, .numV b => a == b
  | .str a, .str b => a == b
  | _, _ => false

/-- JavaScript falsiness: `undefined`, `null`, `false`, `0` and `''` are
falsy; arrays and objects are always truthy. -/
def jsFalsy : JVal → Bool
  | .undefined => true
  | .nullV => true
  | .boolV b => !b
  | .numV n => n == 0
  | .str s => s == ""
  | .arr _ => false
  | .obj _ => false

/-- lodash `isString`. -/
def isString : JVal → Bool
  | .str _ => true
  | _ => false

/-- The string payload of a string value (only read behind an `isString`
guard). -/
def jstr : JVal → String
  | .str s => s
  | _ => ""

/-- One property access `v[key]`: defined on objects, `undefined`
otherwise. -/
def jget1 (v : JVal) (key : String) : JVal :=
  match v with
  | .obj fields =>
      match fields.find? (fun kv => kv.1 = key) with
      | some kv => kv.2
      | none => .undefined
  | _ => .undefined

/-- lodash `get( v, path )` for a path of string keys. -/
def jget (v : JVal) (path : List String) : JVal :=
  path.foldl jget1 v

/-- The `??` operator: right operand only on `null`/`undefined`. -/
def nullishOr (a b : JVal) : JVal :=
  match a with
  | .undefined => b
  | .nullV => b
  | _ => a

/-- The `||` operator: right operand on any falsy left operand. -/
def jsOr (a b : JVal) : JVal :=
  if jsFalsy a then b else a

/-- lodash `find( collection, pred )`: first array element satisfying the
predicate, `undefined` otherwise. -/
def jfind (v : JVal) (p : JVal → Bool) : JVal :=
  match v with
  | .arr xs =>
      match xs.find? p with
      | some x => x
      | none => .undefined
  | _ => .undefined

/-- Capitalize the first character of a word. -/
def capitalizeWord (w : String) : String :=
  match w.toList with
  | [] => ""
  | c :: cs => String.mk (c.toUpper :: cs)

/-- lodash `camelCase` on the hyphen-separated lower-case words used as
preset types. -/
def camelCase (s : String) : String :=
  match s.splitOn "-" with
  | [] => ""
  | w :: ws => w ++ String.join (ws.map capitalizeWord)

/-- `PRESET_CATEGORIES`: preset type to the settings path of its preset list
and the field holding a preset's value. -/
def PRESET_CATEGORIES : List (String × (List String × String)) :=
  [("color", (["color", "palette"], "color")),
   ("gradient", (["color", "gradients"], "gradient")),
   ("fontSize", (["typography", "fontSizes"], "size")),
   ("fontFamily", (["typography", "fontFamilies"], "fontFamily")),
   ("fontStyle", (["typography", "fontStyles"], "slug")),
   ("fontWeight", (["typography", "fontWeights"], "slug")),
   ("textDecoration", (["typography", "textDecorations"], "value")),
   ("textTransform", (["typography", "textTransforms"], "slug"))]

/-- `GLOBAL_CONTEXT`. -/
def GLOBAL_CONTEXT : String := "global"

/-- `getValueFromPresetVariable( styles, blockName, [ presetType, slug ] )`
with the recursive `getValueFromVariable` call abstracted as `recur`: look
the camel-cased preset type up in `PRESET_CATEGORIES`, fetch the preset list
from the block's settings falling back to the global settings, find the
preset whose `slug` matches, and resolve its value, which may itself be a
variable reference. -/
def presetVariableWith (recur : JVal → String → JVal → JVal) (styles : JVal)
    (blockName : String) (path : List String) : JVal :=
  let presetType := camelCase (path.headD "")
  let slug : JVal :=
    match path.get? 1 with
    | some s => .str s
    | none => .undefined
  match (PRESET_CATEGORIES.find? (fun kv => kv.1 = presetType)).map (·.2) with
  | none => .undefined
  | some (catPath, key) =>
      let presets :=
        nullishOr (jget styles (blockName :: "settings" :: catPath))
          (jget styles (GLOBAL_CONTEXT :: "settings" :: catPath))
      if jsFalsy presets then .undefined
      else
        let presetObject :=
          jfind presets (fun preset => jeq (jget1 preset "slug") slug)
        if jsFalsy presetObject then .undefined
        else
          let result := jget1 presetObject key
          jsOr (recur styles blockName result) result

/-- `getValueFromCustomVariable( styles, blockName, path )` with the
recursive `getValueFromVariable` call abstracted as `recur`: fetch the
custom setting at the path from the block's settings falling back to the
global settings and resolve it, since a variable may reference another
variable. -/
def customVariableWith (recur : JVal → String → JVal → JVal) (styles : JVal)
    (blockName : String) (path : List String) : JVal :=
  let result :=
    nullishOr (jget styles (blockName :: "settings" :: "custom" :: path))
      (jget styles (GLOBAL_CONTEXT :: "settings" :: "custom" :: path))
  jsOr (recur styles blockName result) result

/-- `getValueFromVariable( styles, blockName, variable )`: yield `undefined`
for a falsy or non-string variable; parse `var:`-style references by `|` and
`var(--wp--…)` references by `--`; route `preset` and `custom` references to
their helpers and yield `undefined` for anything else.  The guard never
recurses; each recursive resolution step consumes one unit of fuel. -/
def getValueFromVariable : Nat → JVal → String → JVal → JVal
  | fuel, styles, blockName, vVar =>
    if jsFalsy vVar || !(isString vVar) then .undefined
    else
      let s := jstr vVar
      let parsedVar : Option (List String) :=
        if s.startsWith "var:" then
          some ((s.drop 4).splitOn "|")
        else if s.startsWith "var(--wp--" && s.endsWith ")" then
          some (((s.drop 10).dropRight 1).splitOn "--")
        else
          none
      match parsedVar with
      | none => .undefined
      | some parsed =>
          let ty := parsed.headD ""
          let path := parsed.tail
          if ty = "preset" then
            match fuel with
            | 0 => .undefined
            | f + 1 =>
                presetVariableWith
                  (fun st bn w => getValueFromVariable f st bn w)
                  styles blockName path
          else if ty = "custom" then
            match fuel with
            | 0 => .undefined
            | f + 1 =>
                customVariableWith
                  (fun st bn w => getValueFromVariable f st bn w)
                  styles blockName path
          else .undefined

/-- `getValueFromPresetVariable` proper. -/
def getValueFromPresetVariable (fuel : Nat) (styles : JVal)
    (blockName : String) (path : List String) : JVal :=
  presetVariableWith (fun st bn w => getValueFromVariable fuel st bn w)
    styles blockName path

/-- `getValueFromCustomVariable` proper. -/
def getValueFromCustomVariable (fuel : Nat) (styles : JVal)
    (blockName : String) (path : List String) : JVal :=
  customVariableWith (fun st bn w => getValueFromVariable fuel st bn w)
    styles blockName path

end GlobalStyles

/-! ## Theorems -/

namespace Registry

/-- The iterated array object only ever grows during a pass: a `push` appends
and an unsubscribe rebinds the variable without touching the object. -/
theorem orig_prefix_applyBusOp (st : PassState) (op : BusOp) :
    st.orig <+: (applyBusOp st op).orig := by
  cases op with
  | sub id =>
      by_cases h : st.same <;> simp [applyBusOp, h]
  | unsub id => simp [applyBusOp]

/-- The iterated array object only ever grows under a whole listener
script. -/
theorem orig_prefix_applyBusOps (st : PassState) (ops : List BusOp) :
    st.orig <+: (applyBusOps st ops).orig := by
  induction ops generalizing st with
  | nil => simp [applyBusOps]
  | cons op ops ih =>
      have h1 := orig_prefix_applyBusOp st op
      have h2 := ih (applyBusOp st op)
      simp only [applyBusOps, List.foldl_cons] at h2 ⊢
      exact h1.trans h2

/-- The `forEach` loop invokes exactly the `remaining` elements of the
iterated array starting at index `k`, as they stood when the range was
fixed. -/
theorem runPass_invoked (beh : Nat → List BusOp) :
    ∀ (remaining k : Nat) (st : PassState), k + remaining ≤ st.orig.length →
      (runPass beh k remaining st).1 = (st.orig.drop k).take remaining := by
  intro remaining
  induction remaining with
  | zero => intro k st _; simp [runPass]
  | succ r ih =>
      intro k st h
      have hk : k < st.orig.length := by omega
      obtain ⟨t, ht⟩ := orig_prefix_applyBusOps st (beh st.orig[k])
      have hlen : k + 1 + r ≤ (applyBusOps st (beh st.orig[k])).orig.length := by
        rw [← ht, List.length_append]; omega
      have hrec := ih (k + 1) (applyBusOps st (beh st.orig[k])) hlen
      rw [runPass, List.getElem?_eq_getElem hk]
      simp only [hrec]
      rw [← ht, List.drop_append_of_le_length (by omega),
        List.take_append_of_le_length (by simp; omega),
        List.drop_eq_getElem_cons hk, List.take_succ_cons]

/-- C2: for every notify pass of the global listener bus, exactly the
listeners subscribed at the moment the pass began are invoked, in
subscription order — a listener subscribed during the pass (for any
behaviours of the invoked listeners, including subscribes and unsubscribes)
is never invoked within that same pass. -/
theorem globalListener_invokes_snapshot (beh : Nat → List BusOp)
    (listeners : List Nat) : (globalListener beh listeners).1 = listeners := by
  have h := runPass_invoked beh listeners.length 0 ⟨listeners, listeners, true⟩
    (by simp)
  simpa using h

/-- C3 counterexample: subscribing the identical listener function twice and
invoking one unsubscribe removes BOTH registrations — lodash `without`
excludes every occurrence — so the listener is not invoked on the next
notify pass, contrary to the claim that the other registration stays live. -/
theorem unsubscribe_removes_both_registrations :
    unsubscribeListener (subscribeListener (subscribeListener [] 0) 0) 0 = []
    ∧ (globalListener (fun _ => [])
        (unsubscribeListener
          (subscribeListener (subscribeListener [] 0) 0) 0)).1 = [] := by
  constructor <;> rfl

/-- C3 amended: the unsubscribe function returned by `subscribe(listener)`
removes every registration of that listener (and no other listener's
registrations), and calling it a second time is a no-op on the listeners
array; in particular, when the identical listener function has been
subscribed twice, one unsubscribe call removes both registrations. -/
theorem unsubscribe_removes_all_matching (id : Nat) (listeners : List Nat) :
    (∀ other, other ≠ id →
      (unsubscribeListener listeners id).count other = listeners.count other)
    ∧ (unsubscribeListener listeners id).count id = 0
    ∧ unsubscribeListener (unsubscribeListener listeners id) id =
        unsubscribeListener listeners id
    ∧ unsubscribeListener (subscribeListener (subscribeListener listeners id) id)
        id = unsubscribeListener listeners id := by
  refine ⟨fun other hne => ?_, ?_, ?_, ?_⟩
  · exact List.count_filter (by simp [hne])
  · simp [unsubscribeListener, List.count_eq_zero, List.mem_filter]
  · simp [unsubscribeListener, List.filter_filter]
  · simp [unsubscribeListener, subscribeListener, List.filter_append]

/-- C3-amended witness at a concrete input: listener `0` subscribed twice
next to listener `1`; one unsubscribe of `0` keeps `1`'s registration,
removes both of `0`'s, and a second call changes nothing. -/
theorem unsubscribe_removes_all_matching_witness :
    (unsubscribeListener [0, 1, 0] 0).count 1 = ([0, 1, 0] : List Nat).count 1
    ∧ (unsubscribeListener [0, 1, 0] 0).count 0 = 0 := by
  have h := unsubscribe_removes_all_matching 0 [0, 1, 0]
  exact ⟨h.1 1 (by decide), h.2.1⟩

/-- C4: `select` on a key not registered locally returns `undefined` when
the registry has no parent (it never throws: `select` is a total function of
the registry and key), and when a parent has the key registered, `select` on
the child returns the parent's selector bundle. -/
theorem select_miss_and_parent_delegation
    (stores : List (String × StoreEntry)) (key : String)
    (hmiss : lookupStore stores key = none) :
    select (.mk stores none) key = .undefined
    ∧ (∀ (pstores : List (String × StoreEntry)) (pparent : Option RegistryT)
        (e : StoreEntry), lookupStore pstores key = some e →
        select (.mk stores (some (.mk pstores pparent))) key =
          .bundle e.selectors) := by
  constructor
  · rw [select.eq_def]; simp [hmiss]
  · intro pstores pparent e hpe
    rw [select.eq_def]
    simp only [hmiss]
    rw [select.eq_def]
    simp [hpe]

/-- C4 witness at a concrete input: a child registry without `'k'` whose
parent registers `'k'` with selector bundle `7`; the child's `select('k')`
is the parent's bundle, and with no parent it is `undefined`. -/
theorem select_miss_and_parent_delegation_witness :
    select (.mk [("other", ⟨1, 2⟩)] none) "k" = .undefined
    ∧ select (.mk [("other", ⟨1, 2⟩)]
        (some (.mk [("k", ⟨7, 8⟩)] none))) "k" = .bundle 7 := by
  have h := select_miss_and_parent_delegation [("other", ⟨1, 2⟩)] "k"
    (by decide)
  exact ⟨h.1, h.2 [("k", ⟨7, 8⟩)] none ⟨7, 8⟩ (by decide)⟩

/-- C5 counterexample: `dispatch` on an unknown key in a registry without a
parent evaluates `parent && parent.dispatch( reducerKey )` with `parent`
equal to `null`, so it returns `null` — not `undefined` as the claim
states. -/
theorem dispatch_miss_returns_null :
    dispatch (.mk [] none) "x" = .nullV
    ∧ dispatch (.mk [] none) "x" ≠ .undefined := by
  refine ⟨?_, ?_⟩ <;> rw [dispatch.eq_def] <;> simp [lookupStore]

/-- C5 amended: `dispatch(key)` follows the same locally-then-parent
resolution order as `select` — the local store's action bundle if the key is
registered locally, otherwise the parent's `dispatch(key)` result if a
parent exists — but on a full miss with no parent it returns `null` (the
value of the `parent` binding), not `undefined`. -/
theorem dispatch_resolution_order
    (stores : List (String × StoreEntry)) (key : String) :
    (∀ (parent : Option RegistryT) (e : StoreEntry),
      lookupStore stores key = some e →
      dispatch (.mk stores parent) key = .bundle e.actions)
    ∧ (∀ p : RegistryT, lookupStore stores key = none →
        dispatch (.mk stores (some p)) key = dispatch p key)
    ∧ (lookupStore stores key = none →
        dispatch (.mk stores none) key = .nullV) := by
  refine ⟨fun parent e he => ?_, fun p hmiss => ?_, fun hmiss => ?_⟩ <;>
    rw [dispatch.eq_def]
  · simp [he]
  · simp [hmiss]
  · simp [hmiss]

/-- C5-amended witness at a concrete input: a local hit returns the local
action bundle, a local miss delegates to the parent, and a full miss with no
parent yields `null`. -/
theorem dispatch_resolution_order_witness :
    dispatch (.mk [("k", ⟨7, 8⟩)] none) "k" = .bundle 8
    ∧ dispatch (.mk [] (some (.mk [("k", ⟨7, 8⟩)] none))) "k" =
        dispatch (.mk [("k", ⟨7, 8⟩)] none) "k"
    ∧ dispatch (.mk [] none) "k" = .nullV := by
  refine ⟨(dispatch_resolution_order [("k", ⟨7, 8⟩)] "k").1 none ⟨7, 8⟩
      (by decide),
    (dispatch_resolution_order [] "k").2.1 (.mk [("k", ⟨7, 8⟩)] none)
      (by decide),
    (dispatch_resolution_order [] "k").2.2 (by decide)⟩

/-- C6: `registerGenericStore` with a config missing any of `getSelectors`,
`getActions` or `subscribe` throws a `TypeError` synchronously and leaves
the registration state exactly as it was — no entry is added or replaced for
the key and previously registered stores are untouched. -/
theorem registerGenericStore_invalid_config (st : RegState) (key : String)
    (config : GenericConfig)
    (hbad : config.getSelectors = none ∨ config.getActions = none ∨
      config.subscribe = none) :
    (∃ msg, registerGenericStore st key config = .error msg)
    ∧ registerGenericStoreRun st key config = st := by
  have herr : ∃ msg, registerGenericStore st key config = .error msg := by
    rcases hbad with h | h | h
    · exact ⟨"config.getSelectors must be a function",
        by simp [registerGenericStore, h]⟩
    · rcases hsel : config.getSelectors with _ | v
      · exact ⟨"config.getSelectors must be a function",
          by simp [registerGenericStore, hsel]⟩
      · exact ⟨"config.getActions must be a function",
          by simp [registerGenericStore, hsel, h]⟩
    · rcases hsel : config.getSelectors with _ | v
      · exact ⟨"config.getSelectors must be a function",
          by simp [registerGenericStore, hsel]⟩
      · rcases hact : config.getActions with _ | w
        · exact ⟨"config.getActions must be a function",
            by simp [registerGenericStore, hsel, hact]⟩
        · exact ⟨"config.subscribe must be a function",
            by simp [registerGenericStore, hsel, hact, h]⟩
  obtain ⟨msg, hmsg⟩ := herr
  exact ⟨⟨msg, hmsg⟩, by simp [registerGenericStoreRun, hmsg]⟩

/-- C6 witness at a concrete input: an adapter whose `subscribe` is not a
function is rejected and a previously registered store survives intact. -/
theorem registerGenericStore_invalid_config_witness :
    (∃ msg, registerGenericStore
        ⟨[("a", namespaceConfig)], [("a", "a")]⟩ "b"
        ⟨some 3, some 4, none⟩ = .error msg)
    ∧ registerGenericStoreRun ⟨[("a", namespaceConfig)], [("a", "a")]⟩ "b"
        ⟨some 3, some 4, none⟩ =
        ⟨[("a", namespaceConfig)], [("a", "a")]⟩ :=
  registerGenericStore_invalid_config _ "b" ⟨some 3, some 4, none⟩
    (Or.inr (Or.inr rfl))

/-- C7: applying `use` twice, each plugin returning one new method, yields a
registry surface exposing both added methods alongside every original
method; `use` builds the new surface from the old one (the old surface value
is untouched — replacement, not in-place mutation), and each call's result
is what consumers interact with next. -/
theorem use_twice_extends_surface (registry : RegSurface)
    (p1 p2 : RegSurface → RegSurface) (n1 n2 : String) (m1 m2 : Nat)
    (h1 : ∀ k, p1 registry k = if k = n1 then some m1 else none)
    (h2 : ∀ r k, p2 r k = if k = n2 then some m2 else none)
    (hne : n1 ≠ n2) :
    use (use registry p1) p2 n1 = some m1
    ∧ use (use registry p1) p2 n2 = some m2
    ∧ (∀ k, k ≠ n1 → k ≠ n2 → use (use registry p1) p2 k = registry k) := by
  refine ⟨?_, ?_, fun k hk1 hk2 => ?_⟩
  · simp [use, h1, h2, hne]
  · simp [use, h2]
  · simp [use, h1, h2, hk1, hk2]

/-- C7 witness at a concrete input: an original surface with one method
`select ↦ 10`, one plugin adding `a ↦ 1` and a second adding `b ↦ 2`; after
two `use` calls both additions and the original method are exposed. -/
theorem use_twice_extends_surface_witness :
    use (use (fun k => if k = "select" then some 10 else none)
        (fun _ k => if k = "a" then some 1 else none))
      (fun _ k => if k = "b" then some 2 else none) "a" = some 1
    ∧ use (use (fun k => if k = "select" then some 10 else none)
        (fun _ k => if k = "a" then some 1 else none))
      (fun _ k => if k = "b" then some 2 else none) "b" = some 2
    ∧ use (use (fun k => if k = "select" then some 10 else none)
        (fun _ k => if k = "a" then some 1 else none))
      (fun _ k => if k = "b" then some 2 else none) "select" = some 10 := by
  have h := use_twice_extends_surface
    (fun k => if k = "select" then some 10 else none)
    (fun _ k => if k = "a" then some 1 else none)
    (fun _ k => if k = "b" then some 2 else none)
    "a" "b" 1 2 (fun k => rfl) (fun r k => rfl) (by decide)
  exact ⟨h.1, h.2.1, h.2.2 "select" (by decide) (by decide)⟩

/-- A successful or failed `registerGenericStore` call preserves the
invariant that every key with a `stores` entry also has a `storesAtoms`
entry, since the success path writes both maps for the same key. -/
theorem registerGenericStoreRun_atom_invariant (st : RegState) (key : String)
    (config : GenericConfig)
    (h : ∀ k, (alookup st.stores k).isSome → (alookup st.storesAtoms k).isSome) :
    ∀ k, (alookup (registerGenericStoreRun st key config).stores k).isSome →
      (alookup (registerGenericStoreRun st key config).storesAtoms k).isSome := by
  intro k
  unfold registerGenericStoreRun registerGenericStore
  by_cases h1 : config.getSelectors.isNone
  · simpa [h1] using h k
  · by_cases h2 : config.getActions.isNone
    · simpa [h1, h2] using h k
    · by_cases h3 : config.subscribe.isNone
      · simpa [h1, h2, h3] using h k
      · simp only [h1, h2, h3, Bool.false_eq_true, if_false]
        by_cases hk : key = k
        · simp [alookup, List.find?_cons, hk]
        · simpa [alookup, List.find?_cons, hk] using h k

/-- Every registration operation preserves the stores-have-atoms
invariant. -/
theorem applyRegOp_atom_invariant (st : RegState) (op : RegOp)
    (h : ∀ k, (alookup st.stores k).isSome → (alookup st.storesAtoms k).isSome) :
    ∀ k, (alookup (applyRegOp st op).stores k).isSome →
      (alookup (applyRegOp st op).storesAtoms k).isSome := by
  cases op with
  | generic key config => exact registerGenericStoreRun_atom_invariant st key config h
  | store key hasReducer =>
      by_cases hr : hasReducer
      · simpa [applyRegOp, hr] using
          registerGenericStoreRun_atom_invariant st key namespaceConfig h
      · simpa [applyRegOp, hr] using h

/-- The stores-have-atoms invariant holds after any sequence of registration
operations on a fresh registry. -/
theorem runRegOps_atom_invariant (ops : List RegOp) :
    ∀ k, (alookup (runRegOps ops).stores k).isSome →
      (alookup (runRegOps ops).storesAtoms k).isSome := by
  have base : ∀ k, (alookup initRegState.stores k).isSome →
      (alookup initRegState.storesAtoms k).isSome := by
    intro k
    by_cases hk : ("core/data" : String) = k
    · simp [initRegState, registerGenericStoreRun, registerGenericStore,
        namespaceConfig, alookup, List.find?_cons, hk]
    · simp [initRegState, registerGenericStoreRun, registerGenericStore,
        namespaceConfig, alookup, List.find?_cons, hk]
  have main : ∀ (l : List RegOp) (st : RegState),
      (∀ k, (alookup st.stores k).isSome → (alookup st.storesAtoms k).isSome) →
      ∀ k, (alookup (l.foldl applyRegOp st).stores k).isSome →
        (alookup (l.foldl applyRegOp st).storesAtoms k).isSome := by
    intro l
    induction l with
    | nil => intro st hst; simpa using hst
    | cons op rest ih =>
        intro st hst
        simpa [List.foldl_cons] using ih _ (applyRegOp_atom_invariant st op hst)
  exact main ops initRegState base

/-- C8: after any sequence of registration operations, every locally
registered key has a local atom — `registerGenericStore`, the only operation
adding to `stores`, always creates `storesAtoms[ key ]` too — so
`getStoreAtom( key )` returns the local atom and never consults the parent
(its result is the local lookup whatever the parent would answer). -/
theorem getStoreAtom_local_for_registered (ops : List RegOp) (key : String)
    (hreg : (alookup (runRegOps ops).stores key).isSome = true) :
    (alookup (runRegOps ops).storesAtoms key).isSome = true
    ∧ ∀ parentAtom : String → Option String,
        getStoreAtom (runRegOps ops) parentAtom key =
          alookup (runRegOps ops).storesAtoms key := by
  have hatom := runRegOps_atom_invariant ops key hreg
  refine ⟨hatom, fun parentAtom => ?_⟩
  obtain ⟨a, ha⟩ := Option.isSome_iff_exists.mp hatom
  simp [getStoreAtom, ha]

/-- C8 witness at a concrete input: after `registerStore('counter', …)` the
key is registered, has a local atom, and `getStoreAtom` answers it without
consulting a parent that knows nothing. -/
theorem getStoreAtom_local_for_registered_witness :
    (alookup (runRegOps [.store "counter" true]).storesAtoms "counter").isSome
      = true
    ∧ getStoreAtom (runRegOps [.store "counter" true]) (fun _ => none)
        "counter" =
        alookup (runRegOps [.store "counter" true]).storesAtoms "counter" := by
  have h := getStoreAtom_local_for_registered [.store "counter" true] "counter"
    (by decide)
  exact ⟨h.1, h.2 (fun _ => none)⟩

/-- A promise whose listener has unsubscribed is inert: further bus
notifications do not change it. -/
theorem resolveSelectNotify_frozen {σ α : Type} (hf : σ → Bool) (g : σ → α)
    (p : ResolvePromise α) (s : σ) (hsub : p.subscribed = false) :
    resolveSelectNotify hf g p s = p := by
  simp [resolveSelectNotify, hsub]

/-- A promise whose listener has unsubscribed stays unchanged under any
further sequence of notifications. -/
theorem resolveSelectRun_frozen {σ α : Type} (hf : σ → Bool) (g : σ → α)
    (p : ResolvePromise α) (evs : List σ) (hsub : p.subscribed = false) :
    evs.foldl (resolveSelectNotify hf g) p = p := by
  induction evs with
  | nil => rfl
  | cons s rest ih =>
      simp [List.foldl_cons, resolveSelectNotify_frozen hf g p s hsub, ih]

/-- Reachable promise states never combine a resolved status with a live
subscription: resolution and unsubscription happen together. -/
theorem resolveSelectRun_isSome_unsubscribed {σ α : Type} (hf : σ → Bool)
    (g : σ → α) (s0 : σ) (evs : List σ) :
    (resolveSelectRun hf g s0 evs).status.isSome →
      (resolveSelectRun hf g s0 evs).subscribed = false := by
  have main : ∀ (l : List σ) (p : ResolvePromise α),
      (p.status.isSome → p.subscribed = false) →
      ((l.foldl (resolveSelectNotify hf g) p).status.isSome →
        (l.foldl (resolveSelectNotify hf g) p).subscribed = false) := by
    intro l
    induction l with
    | nil => intro p hp; simpa using hp
    | cons s rest ih =>
        intro p hp
        simp only [List.foldl_cons]
        refine ih (resolveSelectNotify hf g p s) ?_
        by_cases hsub : p.subscribed
        · by_cases hfin : hf s
          · simp [resolveSelectNotify, hsub, hfin]
          · simp only [resolveSelectNotify, hsub, hfin]
            simp only [Bool.false_eq_true, if_false, if_true]
            exact hp
        · have hsub' : p.subscribed = false := by
            revert hsub; cases p.subscribed <;> simp
          rw [resolveSelectNotify_frozen hf g p s hsub']
          exact hp
  refine main evs (resolveSelectStart hf g s0) ?_
  by_cases hfin : hf s0
  · simp [resolveSelectStart, hfin]
  · simp [resolveSelectStart, hfin]

/-- C1: for every selector name not in the excluded introspection set, the
resolve-select bundle wraps that selector with the promise machine, and the
promise (a) resolves synchronously exactly when resolution has already
finished, with the selector's current value; (b) resolves at a notification
only when `hasFinishedResolution( selectorName, args )` holds there — never
before — with the value the synchronous selector returns at that point,
removing the bus subscription at the same moment; (c) once resolved it keeps
that value through any further notifications (it resolves exactly once); and
(d) a resolved promise holds no bus subscription (no listener leak). -/
theorem resolveSelect_resolves_once_after_finished {σ α ρ : Type}
    (hasFinishedResolution : String → ρ → σ → Bool)
    (selectors : List (String × (ρ → σ → α)))
    (name : String) (f : ρ → σ → α)
    (hmem : (name, f) ∈ selectors)
    (hexc : excludedResolutionSelectors.contains name = false)
    (args : ρ) (s0 : σ) (events : List σ) :
    ((name, fun (a : ρ) (t0 : σ) (evs : List σ) =>
        resolveSelectRun (hasFinishedResolution name a) (fun s => f a s) t0 evs)
      ∈ getResolveSelectors hasFinishedResolution selectors)
    ∧ (resolveSelectRun (hasFinishedResolution name args) (fun s => f args s)
        s0 [] =
        if hasFinishedResolution name args s0 then
          { status := some (f args s0), subscribed := false }
        else { status := none, subscribed := true })
    ∧ (∀ (p : ResolvePromise α) (s : σ) (v : α), p.status = none →
        (resolveSelectNotify (hasFinishedResolution name args)
          (fun s => f args s) p s).status = some v →
        hasFinishedResolution name args s = true ∧ v = f args s ∧
          (resolveSelectNotify (hasFinishedResolution name args)
            (fun s => f args s) p s).subscribed = false)
    ∧ (∀ (v : α) (more : List σ),
        (resolveSelectRun (hasFinishedResolution name args)
          (fun s => f args s) s0 events).status = some v →
        (resolveSelectRun (hasFinishedResolution name args)
          (fun s => f args s) s0 (events ++ more)).status = some v)
    ∧ (∀ v : α,
        (resolveSelectRun (hasFinishedResolution name args)
          (fun s => f args s) s0 events).status = some v →
        (resolveSelectRun (hasFinishedResolution name args)
          (fun s => f args s) s0 events).subscribed = false) := by
  refine ⟨?_, ?_, ?_, ?_, ?_⟩
  · refine List.mem_map.mpr ⟨(name, f), List.mem_filter.mpr ⟨hmem, ?_⟩, rfl⟩
    simpa using hexc
  · by_cases hfin : hasFinishedResolution name args s0 <;>
      simp [resolveSelectRun, resolveSelectStart, hfin]
  · intro p s v hpend hres
    by_cases hsub : p.subscribed
    · by_cases hfin : hasFinishedResolution name args s
      · refine ⟨hfin, ?_, by simp [resolveSelectNotify, hsub, hfin]⟩
        simp only [resolveSelectNotify, hsub, hfin, if_true] at hres
        exact (Option.some_injective α hres).symm
      · have hid : resolveSelectNotify (hasFinishedResolution name args)
            (fun s => f args s) p s = p := by
          simp [resolveSelectNotify, hsub, hfin]
        rw [hid, hpend] at hres; cases hres
    · have hid : resolveSelectNotify (hasFinishedResolution name args)
          (fun s => f args s) p s = p :=
        resolveSelectNotify_frozen _ _ _ _ (by simpa using hsub)
      rw [hid, hpend] at hres; cases hres
  · intro v more hres
    have hsub := resolveSelectRun_isSome_unsubscribed
      (hasFinishedResolution name args) (fun s => f args s) s0 events
      (by simp [hres])
    have happ : resolveSelectRun (hasFinishedResolution name args)
        (fun s => f args s) s0 (events ++ more) =
        more.foldl
          (resolveSelectNotify (hasFinishedResolution name args)
            (fun s => f args s))
          (resolveSelectRun (hasFinishedResolution name args)
            (fun s => f args s) s0 events) := by
      simp [resolveSelectRun, List.foldl_append]
    rw [happ, resolveSelectRun_frozen _ _ _ more hsub]
    exact hres
  · intro v hres
    exact resolveSelectRun_isSome_unsubscribed _ _ _ _ (by simp [hres])

/-- C1 witness at a concrete input: a selector `getThing` (not excluded)
whose resolution finishes from store state `2` on; the promise started at
state `0` is resolved with the selector's value `20` at the finishing
notification and keeps that value through a later notification. -/
theorem resolveSelect_resolves_once_after_finished_witness :
    (resolveSelectRun (fun s => decide (2 ≤ s)) (fun s => s * 10) 0
      ([1, 2] ++ [3])).status = some 20 := by
  have h := resolveSelect_resolves_once_after_finished
    (fun _ _ s => decide (2 ≤ s))
    [("getThing", fun (_ : List Nat) (s : Nat) => s * 10)]
    "getThing" (fun (_ : List Nat) (s : Nat) => s * 10)
    (List.mem_singleton.mpr rfl) (by decide) [5] 0 [1, 2]
  exact h.2.2.2.1 20 [3] (by decide)

end Registry

namespace Templates

/-- C9: the auto-draft seeding routine never modifies a matched post whose
status is `publish`; it updates a matched post's content only when that post
is an `auto-draft` whose content differs from the template file's content,
and it inserts a new auto-draft exactly when no matching post exists. -/
theorem create_auto_draft_frame (q : Option WPPost)
    (post_type slug theme content : String) :
    (∀ p, q = some p → p.post_status = "publish" →
      create_auto_draft_for_template q post_type slug theme content = .noop)
    ∧ (∀ p c, q = some p →
        create_auto_draft_for_template q post_type slug theme content =
          .updateContent c →
        p.post_status = "auto-draft" ∧ c = content ∧ content ≠ p.post_content)
    ∧ (create_auto_draft_for_template q post_type slug theme content =
        .insertAutoDraft post_type slug content ↔ q = none) := by
  refine ⟨?_, ?_, ?_⟩
  · intro p hq hpub
    subst hq
    simp [create_auto_draft_for_template, hpub]
  · intro p c hq hupd
    subst hq
    by_cases hcond : p.post_status = "auto-draft" ∧ content ≠ p.post_content
    · have hred : create_auto_draft_for_template (some p) post_type slug theme
          content =
          if p.post_status = "auto-draft" ∧ content ≠ p.post_content then
            .updateContent content
          else .noop := rfl
      rw [hred, if_pos hcond] at hupd
      cases hupd
      exact ⟨hcond.1, rfl, hcond.2⟩
    · simp [create_auto_draft_for_template, hcond] at hupd
  · cases q with
    | none => simp [create_auto_draft_for_template]
    | some p =>
        by_cases hcond : p.post_status = "auto-draft" ∧ content ≠ p.post_content <;>
          simp [create_auto_draft_for_template, hcond]

/-- C9 witness at a concrete input: a matched published post is left alone;
a matched stale auto-draft gets its content updated; no match inserts. -/
theorem create_auto_draft_frame_witness :
    create_auto_draft_for_template (some ⟨"publish", "old"⟩) "wp_template"
      "header" "twentytwenty" "new" = .noop
    ∧ (create_auto_draft_for_template (some ⟨"auto-draft", "old"⟩)
        "wp_template" "header" "twentytwenty" "new" = .updateContent "new" →
        "new" ≠ ("old" : String))
    ∧ create_auto_draft_for_template none "wp_template" "header"
        "twentytwenty" "new" = .insertAutoDraft "wp_template" "header" "new" := by
  refine ⟨?_, ?_, ?_⟩
  · exact (create_auto_draft_frame (some ⟨"publish", "old"⟩) "wp_template"
      "header" "twentytwenty" "new").1 ⟨"publish", "old"⟩ rfl rfl
  · intro hupd
    exact ((create_auto_draft_frame (some ⟨"auto-draft", "old"⟩) "wp_template"
      "header" "twentytwenty" "new").2.1 ⟨"auto-draft", "old"⟩ "new" rfl
      hupd).2.2
  · exact (create_auto_draft_frame none "wp_template" "header" "twentytwenty"
      "new").2.2.mpr rfl

end Templates

namespace GlobalStyles

/-- C10: `getValueFromVariable` returns `undefined` — it is a total function
of its inputs, so it cannot throw — whenever the variable is falsy, is not a
string, or is a string that neither starts with `var:` nor both starts with
`var(--wp--` and ends with `)`; this holds for every fuel bound, since the
guard never recurses. -/
theorem getValueFromVariable_non_reference_undefined (fuel : Nat)
    (styles : JVal) (blockName : String) :
    (∀ v, jsFalsy v = true →
      getValueFromVariable fuel styles blockName v = .undefined)
    ∧ (∀ v, isString v = false →
        getValueFromVariable fuel styles blockName v = .undefined)
    ∧ (∀ s : String, s.startsWith "var:" = false →
        (s.startsWith "var(--wp--" && s.endsWith ")") = false →
        getValueFromVariable fuel styles blockName (.str s) = .undefined) := by
  refine ⟨fun v hv => ?_, fun v hv => ?_, fun s h1 h2 => ?_⟩
  · rw [getValueFromVariable]
    simp [hv]
  · rw [getValueFromVariable]
    simp [hv]
  · by_cases hs : s = ""
    · subst hs
      rw [getValueFromVariable]
      simp [jsFalsy]
    · rw [getValueFromVariable]
      simp [jsFalsy, isString, jstr, hs, h1, h2]

/-- C10 witness at concrete inputs: a plain color string, a number and
`null` all yield `undefined`. -/
theorem getValueFromVariable_non_reference_undefined_witness :
    getValueFromVariable 3 (.obj []) "core/button" (.str "red") = .undefined
    ∧ getValueFromVariable 3 (.obj []) "core/button" (.numV 7) = .undefined
    ∧ getValueFromVariable 3 (.obj []) "core/button" .nullV = .undefined := by
  have h := getValueFromVariable_non_reference_undefined 3 (.obj [])
    "core/button"
  exact ⟨h.2.2 "red" (by decide) (by decide), h.2.1 (.numV 7) rfl,
    h.1 .nullV rfl⟩

end GlobalStyles
